import Mathlib

/-!
# Verification of the multi-stage ReAct orchestration layer

Shallow embedding of the orchestration core of the repository:

* `ConversationMemory` (src/src/agents/professional_react_agent.py, lines 13-60),
* the JSON structured-extraction chain `_extract_json` (lines 1362-1401),
* the ensemble selection policy `_call_ensemble` (src/src/agents/base_agent.py,
  lines 100-135),
* the four-phase planner tail `_validate_plan` (lines 636-680 of the agent,
  mirrored by src/src/agents/genius_planner.py lines 210-261),
* the per-turn pipeline control flow of `process` (lines 122-238),
* the data-sample cache `_sample_data_formats` (lines 429-462),
* the ReAct executor `_stage_3_execution` / `_act` (lines 682-841).

External collaborators (the reasoning service, tool execution outcomes, regex
matching of the `re` library, `json.loads`) are passed in as function
parameters; everything that is plain Python control flow or data manipulation
in the source is translated directly.
-/

/-! ## Python value model

Tool calls and LLM-extraction results in the source are dynamically typed
Python values; the executor only ever inspects their truthiness and the
presence/value of an "error" key.  We model just enough of Python's data
model for that. -/

/-- A Python value, as far as the orchestration layer inspects one. -/
inductive PyVal where
  | pyNone : PyVal
  | pyBool (b : Bool) : PyVal
  | pyInt (n : Int) : PyVal
  | pyStr (s : String) : PyVal
  | pyList (xs : List PyVal) : PyVal
  | pyDict (entries : List (String × PyVal)) : PyVal

/-- Python truthiness (`bool(v)`): `None`, `False`, `0`, `""`, `[]`, `{}`
are falsy, everything else truthy. -/
def PyVal.truthy : PyVal → Bool
  | .pyNone => false
  | .pyBool b => b
  | .pyInt n => n != 0
  | .pyStr s => s != ""
  | .pyList xs => !xs.isEmpty
  | .pyDict es => !es.isEmpty

/-- Python's `key in d` for a dict (False for non-dicts, matching the
`isinstance(result, dict) and 'error' in result` guard in `_act`). -/
def PyVal.hasKey : PyVal → String → Bool
  | .pyDict es, k => es.any (fun e => e.1 = k)
  | _, _ => false

/-- Python's `d[key]` lookup (first binding wins); `None` as an out-of-model
default for the cases the source never reaches. -/
def PyVal.getKey : PyVal → String → PyVal
  | .pyDict es, k =>
    match es.find? (fun e => e.1 = k) with
    | some e => e.2
    | none => .pyNone
  | _, _ => .pyNone

/-! ## ConversationMemory (professional_react_agent.py, lines 13-60)

`add_interaction` appends to `short_term`; when the short-term list holds
more than 10 entries, `_consolidate_to_long_term` moves the 5 oldest to
`long_term`, which is trimmed to its last `max_history` entries
(`self.long_term[-self.max_history:]`) when it grows past that bound. -/

/-- Python's `l[-k:]` for `0 < k`: the last `k` elements (all of `l` when
`l` is shorter).  Every use in the source has `k = max_history > 0`. -/
def pyLastSlice (l : List α) (k : Nat) : List α :=
  l.drop (l.length - k)

/-- State of `ConversationMemory` (the `context_summary` string plays no
role in the bounds and is omitted). -/
structure ConversationMemory (α : Type) where
  max_history : Nat
  short_term : List α
  long_term : List α

/-- Model of `ConversationMemory._consolidate_to_long_term`. -/
def ConversationMemory.consolidateToLongTerm (m : ConversationMemory α) :
    ConversationMemory α :=
  if 5 < m.short_term.length then
    let toConsolidate := m.short_term.take 5
    let long := m.long_term ++ toConsolidate
    let long := if m.max_history < long.length then pyLastSlice long m.max_history else long
    { m with short_term := m.short_term.drop 5, long_term := long }
  else m

/-- Model of `ConversationMemory.add_interaction`. -/
def ConversationMemory.addInteraction (m : ConversationMemory α) (x : α) :
    ConversationMemory α :=
  let m := { m with short_term := m.short_term ++ [x] }
  if 10 < m.short_term.length then m.consolidateToLongTerm else m

/-! ## Structured JSON extraction (professional_react_agent.py, lines 1362-1401)

`_extract_json` tries four tiers in order, each wrapped in `try/except`:
1. `json.loads(response.strip())`;
2. regex-extract a fenced code block, then `json.loads`;
3. regex-extract the first balanced-brace object, then `json.loads`;
4. the substring from the first `{` to the last `}`, then `json.loads`.
If all fail, the caller's default is returned.  `json.loads` and the two
`re.search` extractions are library calls, passed in as parameters
(`none` = no match / parse error raised); tier 4 is plain string code and
is translated directly. -/

/-- Index of the first occurrence of `c` in `cs` (Python `str.find`). -/
def pyFindChar (cs : List Char) (c : Char) : Option Nat :=
  cs.findIdx? (fun x => x = c)

/-- Index of the last occurrence of `c` in `cs` (Python `str.rfind`). -/
def pyRfindChar (cs : List Char) (c : Char) : Option Nat :=
  (pyFindChar cs.reverse c).map (fun k => cs.length - 1 - k)

/-- Tier 4 of `_extract_json`: `response[start:end+1]` for
`start = response.find('{')`, `end = response.rfind('}')`, provided both
exist and `end > start`. -/
def braceSpan (response : String) : Option String :=
  let cs := response.toList
  match pyFindChar cs '{', pyRfindChar cs '}' with
  | some start, some stop =>
    if start < stop then some (String.mk ((cs.drop start).take (stop - start + 1)))
    else none
  | _, _ => none

/-- Model of `_extract_json(response, default)`.  `parse` stands for `json.loads`
(`none` when it raises), `fencedBlock` and `balancedObject` for the two
`re.search`-based extractions of tiers 2 and 3. -/
def extractJson {J : Type} (parse : String → Option J)
    (fencedBlock balancedObject : String → Option String)
    (response : String) (default : J) : J :=
  match parse response.trim with
  | some j => j
  | none =>
    match (fencedBlock response).bind parse with
    | some j => j
    | none =>
      match (balancedObject response).bind parse with
      | some j => j
      | none =>
        match (braceSpan response).bind parse with
        | some j => j
        | none => default

/-! ## Ensemble selection (base_agent.py, lines 100-135)

`_call_ensemble` gathers the two provider calls with
`return_exceptions=True`; a raised provider gives `None`, an ordinary
return gives its string.  The selection then branches on Python
truthiness (`if ollama_result and gemini_result`), so an empty-string
response is indistinguishable from a failed call.  `none` models a raised
call; the returned `Option String` is `none` when `_call_ensemble`
itself raises ("Both Ollama and Gemini failed in ensemble mode"). -/

/-- Truthiness of `results[i] if not isinstance(results[i], Exception) else None`:
`None` and the empty string are falsy. -/
def strOptTruthy : Option String → Bool
  | none => false
  | some s => s != ""

/-- Model of `_call_ensemble`, given the settled outcome of each provider call
(`none` = the call raised). -/
def callEnsemble (ollamaRes geminiRes : Option String) : Option String :=
  if strOptTruthy ollamaRes && strOptTruthy geminiRes then
    if (ollamaRes.getD "").length > (geminiRes.getD "").length then ollamaRes
    else geminiRes
  else if strOptTruthy ollamaRes then ollamaRes
  else if strOptTruthy geminiRes then geminiRes
  else none

/-! ## Plan representation and the planner tail (professional_react_agent.py,
lines 591-680; genius_planner.py lines 157-261 is the same logic)

A plan step as produced by the planner: a JSON object with at least
`id`, `action`, `description`, `critical`.  Only `id`, `action` and
`critical` steer the executor. -/

/-- One plan step. -/
structure StepD where
  id : Nat
  action : String
  description : String
  critical : Bool
deriving DecidableEq

/-- A plan dict as seen by `_validate_plan`: `steps := none` models a dict
with no `'steps'` key at all (the other keys carry no control flow). -/
structure PlanDict where
  steps : Option (List StepD)
deriving DecidableEq

/-- The hard-coded plan `_validate_plan` substitutes when the validated
dict has no (or an empty) step list. -/
def planFallback : PlanDict :=
  { steps := some [{ id := 1, action := "bigquery",
                     description := "Execute query", critical := true }] }

/-- The default passed to `_extract_json` by `_optimize_execution`
(phase 3): a single critical `bigquery` step. -/
def optimizeDefault : PlanDict :=
  { steps := some [{ id := 1, action := "bigquery",
                     description := "Execute query", critical := true }] }

/-- Phase 3, `_optimize_execution`: the extraction result of the phase-3
reasoning call, with `optimizeDefault` as the `_extract_json` default
(`none` = extraction fell through to the default). -/
def optimizeExecution (extracted : Option PlanDict) : PlanDict :=
  extracted.getD optimizeDefault

/-- Phase 4, `_validate_plan`: `validated = _extract_json(response, optimized)`;
if `'steps' not in validated or not validated['steps']`, the hard-coded
single-step plan is substituted. -/
def validatePlan (extracted : Option PlanDict) (optimized : PlanDict) : PlanDict :=
  let validated := extracted.getD optimized
  match validated.steps with
  | none => planFallback
  | some [] => planFallback
  | some _ => validated

/-- The planner pipeline as far as the produced step list is concerned:
phases 1 and 2 (`_strategic_analysis`, `_problem_decomposition`) only shape
prompt text, so the final plan is `_validate_plan` applied to the phase-3
output.  `o3`/`o4` are the structured-extraction outcomes of phases 3
and 4 (`none` = that phase's response was unparseable). -/
def planPipeline (o3 o4 : Option PlanDict) : PlanDict :=
  validatePlan o4 (optimizeExecution o3)

/-! ## Per-turn pipeline control flow (professional_react_agent.py, lines 122-238)

`process` runs, in straight-line order: optional stage 0 (schema
exploration, guarded by `enable_db_exploration and not db_schema_cache`),
stage 1 understanding, the clarification early-exit (guarded by
`needs_clarification and not clarification_given`, which also sets the
flag), the non-data-query early-exit, then stages 2-6.  The validation
verdict produced by stage 4 is stored in the result dict but never
branches the control flow. -/

/-- The fields of the stage-1 understanding dict that steer `process`. -/
structure Understanding where
  is_data_query : Bool
  needs_clarification : Bool
deriving DecidableEq

/-- Session-persistent agent state consulted by `process`. -/
structure AgentSession where
  clarification_given : Bool
deriving DecidableEq

/-- The pipeline stages of the agent. -/
inductive Stage where
  | dbExploration | understanding | planning | execution
  | validation | interpretation | synthesis
deriving DecidableEq

/-- The stages `process` runs for one turn, in order.  `explore` is
`enable_db_exploration and not db_schema_cache`; `validationValid` is the
`valid` flag stage 4 reports — it is a parameter only to record that the
code never consults it (no transition in `process` depends on it). -/
def processStages (explore : Bool) (s : AgentSession) (u : Understanding)
    (validationValid : Bool) : List Stage :=
  let leadStages := if explore then [Stage.dbExploration] else []
  if u.needs_clarification && !s.clarification_given then
    leadStages ++ [Stage.understanding]
  else if !u.is_data_query then
    leadStages ++ [Stage.understanding]
  else
    leadStages ++ [Stage.understanding, Stage.planning, Stage.execution,
      Stage.validation, Stage.interpretation, Stage.synthesis]

/-- How a turn of `process` returns. -/
inductive TurnResult where
  | clarification | nonData | fullPipeline
deriving DecidableEq

/-- One turn of `process`, viewed through its early exits: which kind of
result it returns and the session state afterwards. -/
def processTurn (s : AgentSession) (u : Understanding) :
    TurnResult × AgentSession :=
  if u.needs_clarification && !s.clarification_given then
    (TurnResult.clarification, { s with clarification_given := true })
  else if !u.is_data_query then
    (TurnResult.nonData, s)
  else
    (TurnResult.fullPipeline, s)

/-- A whole session: `process` applied to each turn's understanding in
order, threading the agent instance's state. -/
def runSession : AgentSession → List Understanding → List TurnResult
  | _, [] => []
  | s, u :: us =>
    let (r, s') := processTurn s u
    r :: runSession s' us

/-! ## Data-sample cache (professional_react_agent.py, lines 429-462)

`_sample_data_formats` returns `self.data_samples` unchanged if it is a
non-empty dict; otherwise it loops over the cached schema's tables and,
when the `bigquery` tool is registered, issues one `tool.execute`
sampling call per table (exceptions are caught per table; only results
carrying a `'data'` key are stored).  `self.data_samples` is an
*instance* attribute initialised to `{}` in `__init__` (line 117) —
unlike `_shared_schema_cache`, it is not class-level. -/

/-- A table entry of the schema cache, as used by sampling. -/
structure TableInfo where
  name : String
  full_name : String
deriving DecidableEq

/-- Outcome of one sampling `tool.execute` call. -/
inductive FetchOut where
  | raised : FetchOut
  | noData : FetchOut
  | withData (rows : List PyVal) : FetchOut

/-- Model of `_sample_data_formats`, returning the resulting `data_samples`
together with the number of `tool.execute` calls issued.  `cached` is the
instance's current `self.data_samples`; `hasBQ` is whether
`self.tools.get('bigquery')` is registered; `fetch` gives each table's
call outcome. -/
def sampleDataFormats (hasBQ : Bool) (fetch : String → FetchOut)
    (tables : List TableInfo) (cached : List (String × List PyVal)) :
    List (String × List PyVal) × Nat :=
  if !cached.isEmpty then (cached, 0)
  else
    tables.foldl
      (fun acc t =>
        if hasBQ then
          match fetch t.full_name with
          | FetchOut.withData rows => (acc.1 ++ [(t.name, rows.take 3)], acc.2 + 1)
          | _ => (acc.1, acc.2 + 1)
        else acc)
      ([], 0)

/-! ## ReAct executor (professional_react_agent.py, lines 682-841)

`_act` resolves the step's `action` in `self.tools`, returning `None`
(with no `execute` call) when it is not registered.  Otherwise it runs
`for attempt in range(max_retries + 1)` with `max_retries = 2`, issuing
one `tool.execute(tool_input)` per iteration:

* if `execute` returns a dict containing `'error'`: when
  `attempt < max_retries and tool_name == 'bigquery'`, a repair input is
  generated; if it is non-empty and differs from the failed input, the
  loop continues with it, otherwise the error dict is returned at once;
* if `execute` raises: when `attempt < max_retries and tool_name ==
  'bigquery'`, the same repair/progress test applies; on progress the
  loop continues with the repaired input; otherwise, when
  `attempt == max_retries` the dict `{'error': last_error}` is returned,
  and when `attempt < max_retries` the loop falls through and *retries
  with the unchanged input*;
* any other return is a success, returned as-is. -/

/-- Outcome of one `tool.execute` call: an ordinary return or a raised
exception with its message. -/
inductive ExecOut where
  | ok (v : PyVal) : ExecOut
  | raised (msg : String) : ExecOut

/-- The environment `_act` runs in for one step: the registered tool
names, the per-attempt `tool.execute` behaviour, the repair function
(`_react_fix_query`, which never raises: it returns the broken input on
failure), and the synthesized tool input (`_prepare_tool_input`). -/
structure ActEnv where
  tools : List String
  exec : Nat → String → ExecOut
  fixQuery : String → PyVal → String
  prepInput : StepD → String

/-- Constant `max_retries` in `_act` (line 795). -/
def actMaxRetries : Nat := 2

/-- The retry loop of `_act`: `fuel` iterations of the `for` loop remain,
`attempt` is the current loop index, `input` the current `tool_input`,
`lastErr` the current `last_error`.  Returns the step result and the
number of `tool.execute` calls issued. -/
def actLoop (env : ActEnv) (isBQ : Bool) :
    Nat → Nat → String → PyVal → PyVal × Nat
  | 0, _, _, lastErr => (PyVal.pyDict [("error", lastErr)], 0)
  | fuel + 1, attempt, input, _ =>
    match env.exec attempt input with
    | ExecOut.ok v =>
      if v.hasKey "error" then
        let lastErr := v.getKey "error"
        if attempt < actMaxRetries && isBQ then
          let fixed := env.fixQuery input lastErr
          if fixed != "" && fixed != input then
            let rc := actLoop env isBQ fuel (attempt + 1) fixed lastErr
            (rc.1, rc.2 + 1)
          else (v, 1)
        else (v, 1)
      else (v, 1)
    | ExecOut.raised msg =>
      let lastErr := PyVal.pyStr msg
      if attempt < actMaxRetries && isBQ then
        let fixed := env.fixQuery input lastErr
        if fixed != "" && fixed != input then
          let rc := actLoop env isBQ fuel (attempt + 1) fixed lastErr
          (rc.1, rc.2 + 1)
        else if attempt == actMaxRetries then
          (PyVal.pyDict [("error", lastErr)], 1)
        else
          let rc := actLoop env isBQ fuel (attempt + 1) input lastErr
          (rc.1, rc.2 + 1)
      else if attempt == actMaxRetries then
        (PyVal.pyDict [("error", lastErr)], 1)
      else
        let rc := actLoop env isBQ fuel (attempt + 1) input lastErr
        (rc.1, rc.2 + 1)

/-- Model of `_act(step, thought)`: result value and number of `tool.execute`
calls.  `last_error` starts as `None`; the loop runs
`max_retries + 1 = 3` times. -/
def act (env : ActEnv) (step : StepD) : PyVal × Nat :=
  if !env.tools.contains step.action then (PyVal.pyNone, 0)
  else
    actLoop env (step.action == "bigquery") (actMaxRetries + 1) 0
      (env.prepInput step) PyVal.pyNone

/-- Status recorded in an `ExecutionLogEntry`. -/
inductive LogStatus where
  | success | failed
deriving DecidableEq

/-- An `ExecutionLogEntry` as appended by `_stage_3_execution` (the
`thought` and `observation` strings and the 200-character truncation of
the preview are elided: `result_preview` is `some` of the result exactly
when the entry's status is derived from a truthy result, mirroring
`str(action_result)[:200] if action_result else None`). -/
structure LogEntry where
  step_id : Nat
  action : String
  status : LogStatus
  result_preview : Option PyVal

/-- The log entry `_stage_3_execution` appends for one step, given the
`_act` result. -/
def mkLogEntry (s : StepD) (r : PyVal) : LogEntry :=
  { step_id := s.id, action := s.action,
    status := if r.truthy then LogStatus.success else LogStatus.failed,
    result_preview := if r.truthy then some r else none }

/-- The step loop of `_stage_3_execution`: each step runs `_act` (in the
per-step environment `envs i` — the environments absorb the `_think`
prompt and accumulated `results`), its log entry is appended, and the
loop breaks after the append iff `step.get('critical') and not
action_result`. -/
def stage3Loop (envs : Nat → ActEnv) : Nat → List StepD → List LogEntry
  | _, [] => []
  | i, s :: rest =>
    let r := (act (envs i) s).1
    let entry := mkLogEntry s r
    if s.critical && !r.truthy then [entry]
    else entry :: stage3Loop envs (i + 1) rest

/-- The execution log returned by `_stage_3_execution` for a plan. -/
def stage3ExecutionLog (envs : Nat → ActEnv) (steps : List StepD) : List LogEntry :=
  stage3Loop envs 0 steps

/-! ## Witness fixtures (concrete inputs used by witness theorems) -/

/-- A memory at both bounds: 10 short-term and 50 long-term entries. -/
def memFixture : ConversationMemory Nat :=
  { max_history := 50, short_term := List.range 10, long_term := List.range 50 }

/-- A `json.loads` stand-in that fails on every input. -/
def parseNeverFixture : String → Option Nat := fun _ => none

/-- A regex-extraction stand-in that never matches. -/
def regexNeverFixture : String → Option String := fun _ => none

/-- Sampling fixture: one table, tool registered, fetch returns data. -/
def sampleFetchFixture : String → FetchOut :=
  fun _ => FetchOut.withData [PyVal.pyInt 1]

/-- Sampling fixture: the cached schema's table list. -/
def sampleTablesFixture : List TableInfo :=
  [{ name := "products", full_name := "dataset.products" }]

/-- Placeholder step used only as the `List.getD` default in statements. -/
def defaultStep : StepD :=
  { id := 0, action := "", description := "", critical := false }

/-- Placeholder log entry used only as the `List.getD` default. -/
def defaultLogEntry : LogEntry :=
  mkLogEntry defaultStep PyVal.pyNone

/-- Executor fixture for C2: no registered tools, so every `_act` returns
a falsy `None`; three steps with only the second marked critical. -/
def execEnvFixture : ActEnv :=
  { tools := [], exec := fun _ _ => ExecOut.ok PyVal.pyNone,
    fixQuery := fun broken _ => broken, prepInput := fun _ => "" }

/-- Three-step plan: non-critical failure, critical failure, trailing step. -/
def execStepsFixture : List StepD :=
  [{ id := 1, action := "analyze", description := "a", critical := false },
   { id := 2, action := "analyze", description := "b", critical := true },
   { id := 3, action := "analyze", description := "c", critical := false }]

/-- Executor fixture for C10: `bigquery` never registered; the step's
action names no tool; the exec oracle would succeed if it were ever
consulted, showing the result does not come from it. -/
def unknownToolEnvFixture : ActEnv :=
  { tools := ["bigquery"], exec := fun _ _ => ExecOut.ok (PyVal.pyStr "rows"),
    fixQuery := fun broken _ => broken, prepInput := fun _ => "q" }

/-- A one-step plan whose critical step names an unregistered tool. -/
def unknownToolStepsFixture : List StepD :=
  [{ id := 1, action := "visualize", description := "d", critical := true }]

/-- Executor fixture for C3's counterexample: a `bigquery` step whose
tool raises on every call and whose repair returns the failed input
unchanged (no progress). -/
def noProgressEnvFixture : ActEnv :=
  { tools := ["bigquery"], exec := fun _ _ => ExecOut.raised "boom",
    fixQuery := fun broken _ => broken, prepInput := fun _ => "SELECT 1" }

/-- The step driven through `noProgressEnvFixture`. -/
def noProgressStepFixture : StepD :=
  { id := 1, action := "bigquery", description := "q", critical := true }

/-- Executor fixture for the C3 witness: the tool returns an error dict
on the first call and the repair reproduces the failed input. -/
def errDictEnvFixture : ActEnv :=
  { tools := ["bigquery"],
    exec := fun _ _ => ExecOut.ok (PyVal.pyDict [("error", PyVal.pyStr "bad")]),
    fixQuery := fun broken _ => broken, prepInput := fun _ => "SELECT 2" }

/-- The step driven through `errDictEnvFixture`. -/
def errDictStepFixture : StepD :=
  { id := 1, action := "bigquery", description := "q", critical := true }

/-! ## Theorems -/

/-- Length of a Python `l[-k:]` slice. -/
theorem pyLastSlice_length (l : List α) (k : Nat) :
    (pyLastSlice l k).length = min l.length k := by
  simp [pyLastSlice]
  omega

/-- C8: every `add_interaction` call preserves the memory bounds: with the
default `max_history = 50`, the short-term list never holds more than 10
entries after an add completes, the long-term list never exceeds 50
entries, and on overflow exactly the 5 oldest short-term entries (in
order) are appended to the long-term list, which keeps only its newest 50
entries (evicting the oldest first). -/
theorem conversationMemory_add_bounded (m : ConversationMemory α) (x : α)
    (hmh : m.max_history = 50)
    (hs : m.short_term.length ≤ 10) (hl : m.long_term.length ≤ 50) :
    ((m.addInteraction x).short_term.length ≤ 10 ∧
      (m.addInteraction x).long_term.length ≤ 50) ∧
    (m.short_term.length = 10 →
      (m.addInteraction x).short_term = (m.short_term ++ [x]).drop 5 ∧
      (m.addInteraction x).long_term =
        pyLastSlice (m.long_term ++ (m.short_term ++ [x]).take 5) 50) := by
  unfold ConversationMemory.addInteraction ConversationMemory.consolidateToLongTerm
  dsimp only
  split_ifs with h10 h5 hover <;> dsimp only
  · refine ⟨⟨?_, ?_⟩, fun _ => ⟨rfl, ?_⟩⟩
    · simp only [List.length_append, List.length_singleton] at h10 ⊢
      simp only [List.length_drop, List.length_append, List.length_singleton]
      omega
    · rw [hmh]
      simp only [pyLastSlice_length]
      omega
    · rw [hmh]
  · refine ⟨⟨?_, ?_⟩, fun _ => ⟨rfl, ?_⟩⟩
    · simp only [List.length_drop, List.length_append, List.length_singleton]
      omega
    · rw [hmh] at hover
      push_neg at hover
      omega
    · rw [hmh] at hover
      push_neg at hover
      unfold pyLastSlice
      have h0 : (m.long_term ++ (m.short_term ++ [x]).take 5).length - 50 = 0 := by omega
      rw [h0, List.drop_zero]
  · exfalso
    simp only [List.length_append, List.length_singleton] at h10 h5
    omega
  · simp only [List.length_append, List.length_singleton] at h10
    push_neg at h10
    refine ⟨⟨by simp only [List.length_append, List.length_singleton]; omega, hl⟩,
      fun hfull => ?_⟩
    exfalso
    omega

/-- Witness for C8 at a memory with 10 short-term and 50 long-term
entries: the add consolidates and both bounds still hold. -/
theorem conversationMemory_add_bounded_witness :
    (((memFixture.addInteraction 99).short_term.length ≤ 10 ∧
       (memFixture.addInteraction 99).long_term.length ≤ 50) ∧
     (memFixture.short_term.length = 10 →
       (memFixture.addInteraction 99).short_term =
         (memFixture.short_term ++ [99]).drop 5 ∧
       (memFixture.addInteraction 99).long_term =
         pyLastSlice (memFixture.long_term ++ (memFixture.short_term ++ [99]).take 5) 50)) :=
  conversationMemory_add_bounded memFixture 99 rfl (by simp [memFixture])
    (by simp [memFixture])

/-- C9: `_extract_json` is total (it always returns, never raising to the
caller) and tries its four tiers in order — direct parse of the stripped
response, fenced code block, first balanced-brace object, first-to-last
brace substring — returning the first tier that parses, and the caller's
supplied default exactly when all four tiers fail. -/
theorem extractJson_fallback_chain {J : Type} (parse : String → Option J)
    (fb bo : String → Option String) (response : String) (default : J) :
    (∀ j, parse response.trim = some j →
      extractJson parse fb bo response default = j) ∧
    (∀ j, parse response.trim = none → (fb response).bind parse = some j →
      extractJson parse fb bo response default = j) ∧
    (∀ j, parse response.trim = none → (fb response).bind parse = none →
      (bo response).bind parse = some j →
      extractJson parse fb bo response default = j) ∧
    (∀ j, parse response.trim = none → (fb response).bind parse = none →
      (bo response).bind parse = none → (braceSpan response).bind parse = some j →
      extractJson parse fb bo response default = j) ∧
    (parse response.trim = none → (fb response).bind parse = none →
      (bo response).bind parse = none → (braceSpan response).bind parse = none →
      extractJson parse fb bo response default = default) := by
  unfold extractJson
  refine ⟨?_, ?_, ?_, ?_, ?_⟩ <;> intros <;> simp only [*]

/-- Witness for C9: a response on which every tier fails yields the
caller's default. -/
theorem extractJson_fallback_chain_witness :
    extractJson parseNeverFixture regexNeverFixture regexNeverFixture "no json here" 7 = 7 :=
  (extractJson_fallback_chain parseNeverFixture regexNeverFixture regexNeverFixture
      "no json here" 7).2.2.2.2 rfl rfl rfl rfl

/-- C6 counterexample: the claim says that when exactly one provider call
fails the other provider's result is returned; but when the surviving
provider returns the empty string (a successful call), `_call_ensemble`
raises instead of returning it, because the selection branches on Python
truthiness and an empty string is falsy. -/
theorem callEnsemble_empty_success_counterexample :
    callEnsemble (some "") none = none ∧ callEnsemble (some "") none ≠ some "" := by
  decide

/-- C6 amended: with failures and empty-string responses both counted as
failed, `_call_ensemble` returns the longer of the two responses when
both providers yield non-empty strings (the second provider's on equal
lengths), returns the sole non-empty response when exactly one provider
yields one, and raises otherwise. -/
theorem callEnsemble_policy (o g : Option String) :
    (∀ so sg, o = some so → g = some sg → so ≠ "" → sg ≠ "" →
      callEnsemble o g = some (if sg.length < so.length then so else sg)) ∧
    (∀ so, o = some so → so ≠ "" → (g = none ∨ g = some "") →
      callEnsemble o g = some so) ∧
    (∀ sg, g = some sg → sg ≠ "" → (o = none ∨ o = some "") →
      callEnsemble o g = some sg) ∧
    ((o = none ∨ o = some "") → (g = none ∨ g = some "") →
      callEnsemble o g = none) := by
  refine ⟨?_, ?_, ?_, ?_⟩
  · rintro so sg rfl rfl hso hsg
    have h1 : (so != "") = true := bne_iff_ne.mpr hso
    have h2 : (sg != "") = true := bne_iff_ne.mpr hsg
    simp only [callEnsemble, strOptTruthy, h1, h2, Bool.and_self, if_true,
      Option.getD_some]
    by_cases hlt : sg.length < so.length
    · simp [gt_iff_lt, hlt]
    · simp [gt_iff_lt, hlt]
  · rintro so rfl hso hg
    rcases hg with rfl | rfl <;>
      simp [callEnsemble, strOptTruthy, hso]
  · rintro sg rfl hsg ho
    rcases ho with rfl | rfl <;>
      simp [callEnsemble, strOptTruthy, hsg]
  · rintro (rfl | rfl) (rfl | rfl) <;> simp [callEnsemble, strOptTruthy]

/-- Witness for C6 (spec Scenario D shape): both providers succeed with
non-empty responses of different lengths and the longer one is returned. -/
theorem callEnsemble_policy_witness :
    callEnsemble (some "aa") (some "bbbb") = some "bbbb" := by
  have h := (callEnsemble_policy (some "aa") (some "bbbb")).1 "aa" "bbbb" rfl rfl
    (by decide) (by decide)
  simpa using h

/-- C4: whatever the reasoning service returns in each planning phase —
including every phase response being unparseable — the planner's final
plan has a non-empty step list; in the all-parses-fail case the result is
the single-step critical query plan (action `bigquery`, the data-source
query tool), never an abort or an empty plan. -/
theorem planPipeline_never_empty (o3 o4 : Option PlanDict) :
    (∃ l, (planPipeline o3 o4).steps = some l ∧ l ≠ []) ∧
    (planPipeline none none).steps =
      some [{ id := 1, action := "bigquery",
              description := "Execute query", critical := true }] := by
  constructor
  · unfold planPipeline validatePlan
    rcases hs : (o4.getD (optimizeExecution o3)).steps with _ | (_ | ⟨s, l⟩) <;>
      simp only [hs]
    · exact ⟨_, rfl, by simp [planFallback]⟩
    · exact ⟨_, rfl, by simp [planFallback]⟩
    · exact ⟨s :: l, rfl, by simp⟩
  · rfl

/-- C1 counterexample: on a turn whose Validation stage reports
`valid = false` with zero retries used, `process` does not return to
Planning: the stage trace contains Planning exactly once (before
Validation) and is identical to the trace of a turn whose validation
succeeds — Interpretation follows Validation directly. -/
theorem process_no_plan_retry_counterexample :
    processStages false ⟨false⟩ ⟨true, false⟩ false =
      [Stage.understanding, Stage.planning, Stage.execution, Stage.validation,
       Stage.interpretation, Stage.synthesis] ∧
    (processStages false ⟨false⟩ ⟨true, false⟩ false).count Stage.planning = 1 ∧
    processStages false ⟨false⟩ ⟨true, false⟩ false =
      processStages false ⟨false⟩ ⟨true, false⟩ true := by
  decide

/-- C1 amended: the pipeline has no Plan-retry edge.  For every turn that
reaches the full pipeline, Planning runs exactly once and the trace ends
with Validation immediately followed by Interpretation and Synthesis,
whatever `valid` flag the Validation stage reports (the bounded max-2
retry in the source is inside `_stage_4_validation`, re-invoking the
reasoning call when its response lacks the valid/confidence fields — it
never re-enters Planning). -/
theorem process_validation_always_interprets (explore : Bool) (s : AgentSession)
    (u : Understanding) (v : Bool)
    (hclar : u.needs_clarification = false ∨ s.clarification_given = true)
    (hdata : u.is_data_query = true) :
    (processStages explore s u v).count Stage.planning = 1 ∧
    (∃ pre, processStages explore s u v =
      pre ++ [Stage.validation, Stage.interpretation, Stage.synthesis]) ∧
    processStages explore s u v = processStages explore s u true := by
  obtain ⟨cg⟩ := s
  obtain ⟨idq, nc⟩ := u
  subst hdata
  have hg : (nc && !cg) = false := by
    rcases hclar with h | h <;> simp_all
  have htrace : ∀ w : Bool, processStages explore ⟨cg⟩ ⟨true, nc⟩ w =
      (if explore then [Stage.dbExploration] else []) ++
      [Stage.understanding, Stage.planning, Stage.execution, Stage.validation,
       Stage.interpretation, Stage.synthesis] := by
    intro w
    simp [processStages, hg]
  rw [htrace v, htrace true]
  refine ⟨?_,
    ⟨(if explore then [Stage.dbExploration] else []) ++
      [Stage.understanding, Stage.planning, Stage.execution],
     by simp⟩, rfl⟩
  cases explore <;> decide

/-- Witness for C1 amended: a turn with clarification already given and a
failing validation still runs Planning once and ends with
Validation-Interpretation-Synthesis. -/
theorem process_validation_always_interprets_witness :
    (processStages false ⟨true⟩ ⟨true, true⟩ false).count Stage.planning = 1 ∧
    (∃ pre, processStages false ⟨true⟩ ⟨true, true⟩ false =
      pre ++ [Stage.validation, Stage.interpretation, Stage.synthesis]) ∧
    processStages false ⟨true⟩ ⟨true, true⟩ false =
      processStages false ⟨true⟩ ⟨true, true⟩ true :=
  process_validation_always_interprets false ⟨true⟩ ⟨true, true⟩ false
    (Or.inr rfl) rfl

/-- C5 counterexample: the first ambiguous turn takes the clarification
exit, but a later ambiguous turn that is not a data query returns the
static non-data response — it does not proceed to Planning, contrary to
the claim that every later ambiguous turn proceeds to Planning. -/
theorem clarification_then_nondata_counterexample :
    runSession ⟨false⟩ [⟨true, true⟩, ⟨false, true⟩] =
      [TurnResult.clarification, TurnResult.nonData] ∧
    (⟨false, true⟩ : Understanding).needs_clarification = true ∧
    TurnResult.nonData ≠ TurnResult.fullPipeline := by
  decide

/-- Once `clarification_given` is set, no later turn of the session takes
the clarification exit. -/
theorem runSession_no_clarify_of_given (us : List Understanding) :
    ∀ s : AgentSession, s.clarification_given = true →
      (runSession s us).count TurnResult.clarification = 0 := by
  induction us with
  | nil => intro s _; rfl
  | cons u us ih =>
    intro s h
    obtain ⟨cg⟩ := s
    subst h
    by_cases hd : u.is_data_query <;>
      simp [runSession, processTurn, hd, List.count_cons, ih ⟨true⟩ rfl]

/-- The clarification count of any session suffix is bounded by 1 when
the flag is still clear and by 0 once it is set. -/
theorem runSession_count_clarify_le (us : List Understanding) :
    ∀ s : AgentSession, (runSession s us).count TurnResult.clarification ≤
      (if s.clarification_given then 0 else 1) := by
  induction us with
  | nil => intro s; simp [runSession]
  | cons u us ih =>
    intro s
    obtain ⟨cg⟩ := s
    cases cg
    · by_cases hc : u.needs_clarification
      · have h0 := runSession_no_clarify_of_given us ⟨true⟩ rfl
        simp [runSession, processTurn, hc, List.count_cons, h0]
      · by_cases hd : u.is_data_query <;>
          simpa [runSession, processTurn, hc, hd, List.count_cons] using ih ⟨false⟩
    · have h0 := runSession_no_clarify_of_given (u :: us) ⟨true⟩ rfl
      simp [h0]

/-- C5 amended: the clarification early-exit fires at most once per
session; the first ambiguous turn returns the clarification response, and
every later ambiguous turn skips the exit — it proceeds to Planning when
it is a data query and returns the static non-data response otherwise. -/
theorem clarification_at_most_once (s : AgentSession) (us : List Understanding) :
    ((runSession s us).count TurnResult.clarification ≤
      (if s.clarification_given then 0 else 1)) ∧
    (∀ s' : AgentSession, ∀ u : Understanding, s'.clarification_given = false →
      u.needs_clarification = true →
      (processTurn s' u).1 = TurnResult.clarification) ∧
    (∀ s' : AgentSession, ∀ u : Understanding, s'.clarification_given = true →
      u.needs_clarification = true →
      (processTurn s' u).1 =
        (if u.is_data_query then TurnResult.fullPipeline else TurnResult.nonData)) := by
  refine ⟨runSession_count_clarify_le us s, ?_, ?_⟩
  · intro s' u h hc
    simp [processTurn, h, hc]
  · intro s' u h hc
    by_cases hd : u.is_data_query <;> simp [processTurn, h, hc, hd]

/-- Witness for C5 amended at a two-turn session: one clarification in
total; an ambiguous first turn clarifies; an ambiguous turn after the
flag is set proceeds to the full pipeline when it is a data query. -/
theorem clarification_at_most_once_witness :
    ((runSession ⟨false⟩ [⟨true, true⟩, ⟨true, true⟩]).count
        TurnResult.clarification ≤
      (if (⟨false⟩ : AgentSession).clarification_given then 0 else 1)) ∧
    (processTurn ⟨false⟩ ⟨true, true⟩).1 = TurnResult.clarification ∧
    (processTurn ⟨true⟩ ⟨true, true⟩).1 =
      (if (⟨true, true⟩ : Understanding).is_data_query then TurnResult.fullPipeline
       else TurnResult.nonData) := by
  have h := clarification_at_most_once ⟨false⟩ [⟨true, true⟩, ⟨true, true⟩]
  exact ⟨h.1, h.2.1 ⟨false⟩ ⟨true, true⟩ rfl rfl, h.2.2 ⟨true⟩ ⟨true, true⟩ rfl rfl⟩

/-- C7 counterexample: the sample store is the *instance* attribute
`self.data_samples`, not a process-wide slot.  A first agent instance's
Planning stage populates its store with one sampling call; a second agent
instance in the same process starts from its own empty `data_samples`
(initialised in `__init__`) and issues a sampling call again — not zero —
so samples are not fetched at most once per process. -/
theorem sample_refetch_new_instance_counterexample :
    (sampleDataFormats true sampleFetchFixture sampleTablesFixture []).1.isEmpty = false ∧
    (sampleDataFormats true sampleFetchFixture sampleTablesFixture []).2 = 1 ∧
    (sampleDataFormats true sampleFetchFixture sampleTablesFixture []).2 ≠ 0 := by
  refine ⟨rfl, rfl, by decide⟩

/-- C7 amended: samples are fetched at most once per agent *instance*:
whenever the instance's `data_samples` store is non-empty,
`_sample_data_formats` returns it unchanged with zero sampling tool
calls; in particular, after a first call populates the store with a
non-empty sample set, a second call on the same instance issues zero
calls.  (A different instance re-fetches, since the store is per-instance
— see the counterexample.) -/
theorem sample_cache_per_instance (hasBQ : Bool) (fetch : String → FetchOut)
    (tables : List TableInfo) (cached : List (String × List PyVal)) :
    (cached.isEmpty = false →
      sampleDataFormats hasBQ fetch tables cached = (cached, 0)) ∧
    ((sampleDataFormats hasBQ fetch tables []).1.isEmpty = false →
      sampleDataFormats hasBQ fetch tables (sampleDataFormats hasBQ fetch tables []).1 =
        ((sampleDataFormats hasBQ fetch tables []).1, 0)) := by
  constructor
  · intro h
    conv_lhs => rw [sampleDataFormats]
    simp [h]
  · intro h
    conv_lhs => rw [sampleDataFormats]
    simp [h]

/-- Witness for C7 amended: on the fixture, the second call on the same
instance returns the cached samples with zero tool calls. -/
theorem sample_cache_per_instance_witness :
    sampleDataFormats true sampleFetchFixture sampleTablesFixture
        (sampleDataFormats true sampleFetchFixture sampleTablesFixture []).1 =
      ((sampleDataFormats true sampleFetchFixture sampleTablesFixture []).1, 0) :=
  (sample_cache_per_instance true sampleFetchFixture sampleTablesFixture []).2 rfl

/-- Structural description of the `_stage_3_execution` step loop from any
start index: the log never outruns the plan, processes at least one step
of a non-empty plan, records each processed step's entry from its `_act`
result, and continues past an appended entry iff that step was not a
critical failure. -/
theorem stage3Loop_spec (envs : Nat → ActEnv) :
    ∀ (steps : List StepD) (i : Nat),
      ((stage3Loop envs i steps).length ≤ steps.length) ∧
      (steps ≠ [] → stage3Loop envs i steps ≠ []) ∧
      (∀ j, j < (stage3Loop envs i steps).length →
        (stage3Loop envs i steps).getD j defaultLogEntry =
          mkLogEntry (steps.getD j defaultStep)
            ((act (envs (i + j)) (steps.getD j defaultStep)).1)) ∧
      (∀ j, j < (stage3Loop envs i steps).length → j + 1 < steps.length →
        (j + 1 < (stage3Loop envs i steps).length ↔
          ¬((steps.getD j defaultStep).critical = true ∧
            ((act (envs (i + j)) (steps.getD j defaultStep)).1).truthy = false))) := by
  intro steps
  induction steps with
  | nil =>
    intro i
    refine ⟨by simp [stage3Loop], by simp, ?_, ?_⟩ <;>
      intro j hj <;> simp [stage3Loop] at hj
  | cons s rest ih =>
    intro i
    by_cases hb : (s.critical && !((act (envs i) s).1).truthy) = true
    · have hcrit : s.critical = true ∧ ((act (envs i) s).1).truthy = false := by
        simpa [Bool.and_eq_true, Bool.not_eq_true'] using hb
      have hlog : stage3Loop envs i (s :: rest) =
          [mkLogEntry s ((act (envs i) s).1)] := by
        simp [stage3Loop, hb]
      refine ⟨?_, ?_, ?_, ?_⟩
      · rw [hlog]; simp
      · intro _; rw [hlog]; simp
      · intro j hj
        rw [hlog] at hj ⊢
        have hj0 : j = 0 := by simpa [Nat.lt_one_iff] using hj
        subst hj0
        simp
      · intro j hj hs
        rw [hlog] at hj ⊢
        have hj0 : j = 0 := by simpa [Nat.lt_one_iff] using hj
        subst hj0
        simp [hcrit.1, hcrit.2]
    · have hlog : stage3Loop envs i (s :: rest) =
          mkLogEntry s ((act (envs i) s).1) :: stage3Loop envs (i + 1) rest := by
        simp [stage3Loop, hb]
      obtain ⟨ih1, ih2, ih3, ih4⟩ := ih (i + 1)
      refine ⟨?_, ?_, ?_, ?_⟩
      · rw [hlog]
        simpa using Nat.succ_le_succ ih1
      · intro _
        rw [hlog]
        simp
      · intro j hj
        rw [hlog] at hj ⊢
        cases j with
        | zero => simp
        | succ k =>
          simp only [List.getD_cons_succ, List.length_cons] at hj ⊢
          have hk : i + (k + 1) = (i + 1) + k := by omega
          rw [hk]
          exact ih3 k (by omega)
      · intro j hj hs
        rw [hlog] at hj ⊢
        cases j with
        | zero =>
          have hrest : rest ≠ [] := by
            simp only [List.length_cons] at hs
            exact List.ne_nil_of_length_pos (by omega)
          have hlp : 0 < (stage3Loop envs (i + 1) rest).length :=
            List.length_pos.mpr (ih2 hrest)
          have hnb : ¬(s.critical = true ∧ ((act (envs i) s).1).truthy = false) := by
            rintro ⟨h1, h2⟩
            exact hb (by simp [h1, h2])
          simp only [List.length_cons, List.getD_cons_zero, Nat.add_zero]
          simp only [hnb, not_false_iff, iff_true]
          omega
        | succ k =>
          simp only [List.getD_cons_succ, List.length_cons] at hj hs ⊢
          have hk : i + (k + 1) = (i + 1) + k := by omega
          rw [hk]
          have hiff := ih4 k (by omega) (by omega)
          constructor
          · intro h
            exact hiff.mp (by omega)
          · intro h
            have := hiff.mpr h
            omega

/-- C2: in `_stage_3_execution`, after a step's log entry is appended,
execution of the remaining steps stops early iff that step failed and was
marked critical: the log never exceeds the plan, each processed step's
entry records status `failed` exactly when its `_act` result is falsy,
non-critical failures are followed by the next step's entry, and a
critical failure still yields the (partial) log — the loop is total and
never raises. -/
theorem stage3_stops_iff_critical_failure (envs : Nat → ActEnv) (steps : List StepD) :
    ((stage3ExecutionLog envs steps).length ≤ steps.length) ∧
    (steps ≠ [] → stage3ExecutionLog envs steps ≠ []) ∧
    (∀ j, j < (stage3ExecutionLog envs steps).length →
      (stage3ExecutionLog envs steps).getD j defaultLogEntry =
        mkLogEntry (steps.getD j defaultStep)
          ((act (envs j) (steps.getD j defaultStep)).1)) ∧
    (∀ j, j < (stage3ExecutionLog envs steps).length →
      (((stage3ExecutionLog envs steps).getD j defaultLogEntry).status = LogStatus.failed ↔
        ((act (envs j) (steps.getD j defaultStep)).1).truthy = false)) ∧
    (∀ j, j < (stage3ExecutionLog envs steps).length → j + 1 < steps.length →
      (j + 1 < (stage3ExecutionLog envs steps).length ↔
        ¬((steps.getD j defaultStep).critical = true ∧
          ((act (envs j) (steps.getD j defaultStep)).1).truthy = false))) := by
  obtain ⟨h1, h2, h3, h4⟩ := stage3Loop_spec envs steps 0
  simp only [Nat.zero_add] at h3 h4
  simp only [stage3ExecutionLog]
  refine ⟨h1, h2, h3, ?_, h4⟩
  intro j hj
  rw [h3 j hj]
  by_cases ht : ((act (envs j) (steps.getD j defaultStep)).1).truthy = true
  · simp [mkLogEntry, ht]
  · simp only [Bool.not_eq_true] at ht
    simp [mkLogEntry, ht]

/-- Witness for C2 on the fixture plan: the log is cut after the critical
failure at index 1 (the trailing step is never logged), and the
continuation iff holds at the non-critical failing first step. -/
theorem stage3_stops_iff_critical_failure_witness :
    ((stage3ExecutionLog (fun _ => execEnvFixture) execStepsFixture).length ≤
      execStepsFixture.length) ∧
    (((stage3ExecutionLog (fun _ => execEnvFixture) execStepsFixture).getD 0
        defaultLogEntry).status = LogStatus.failed ↔
      ((act execEnvFixture (execStepsFixture.getD 0 defaultStep)).1).truthy = false) ∧
    (0 + 1 < (stage3ExecutionLog (fun _ => execEnvFixture) execStepsFixture).length ↔
      ¬((execStepsFixture.getD 0 defaultStep).critical = true ∧
        ((act execEnvFixture (execStepsFixture.getD 0 defaultStep)).1).truthy = false)) := by
  have h := stage3_stops_iff_critical_failure (fun _ => execEnvFixture) execStepsFixture
  exact ⟨h.1, h.2.2.2.1 0 (by decide), h.2.2.2.2 0 (by decide) (by decide)⟩

/-- C10: a step whose action names no registered tool makes `_act` return
`None` with zero `tool.execute` calls (no exception); its log entry is
recorded with status `failed` and a null result preview, and when such a
step is critical the remaining plan is not executed (the log ends at that
step). -/
theorem act_unknown_tool_fails_step (envs : Nat → ActEnv) (steps : List StepD) (j : Nat)
    (hj : j < (stage3ExecutionLog envs steps).length)
    (hna : (envs j).tools.contains (steps.getD j defaultStep).action = false) :
    act (envs j) (steps.getD j defaultStep) = (PyVal.pyNone, 0) ∧
    ((stage3ExecutionLog envs steps).getD j defaultLogEntry).status = LogStatus.failed ∧
    ((stage3ExecutionLog envs steps).getD j defaultLogEntry).result_preview = none ∧
    ((steps.getD j defaultStep).critical = true →
      (stage3ExecutionLog envs steps).length = j + 1) := by
  obtain ⟨h1, h2, h3, h4⟩ := stage3Loop_spec envs steps 0
  simp only [Nat.zero_add] at h3 h4
  simp only [stage3ExecutionLog] at hj ⊢
  have hact : act (envs j) (steps.getD j defaultStep) = (PyVal.pyNone, 0) := by
    unfold act
    rw [hna]
    simp
  refine ⟨hact, ?_, ?_, ?_⟩
  · rw [h3 j hj, hact]
    simp [mkLogEntry, PyVal.truthy]
  · rw [h3 j hj, hact]
    simp [mkLogEntry, PyVal.truthy]
  · intro hcrit
    by_cases hnext : j + 1 < steps.length
    · have hiff := h4 j hj hnext
      have hnot : ¬(j + 1 < (stage3Loop envs 0 steps).length) := by
        rw [hiff]
        exact not_not_intro ⟨hcrit, by rw [hact]; rfl⟩
      omega
    · omega

/-- Witness for C10: on the fixture, `_act` issues zero execute calls,
the entry is failed with a null preview, and the log stops at the
critical unknown-tool step. -/
theorem act_unknown_tool_fails_step_witness :
    act unknownToolEnvFixture (unknownToolStepsFixture.getD 0 defaultStep) =
      (PyVal.pyNone, 0) ∧
    ((stage3ExecutionLog (fun _ => unknownToolEnvFixture) unknownToolStepsFixture).getD 0
        defaultLogEntry).status = LogStatus.failed ∧
    ((stage3ExecutionLog (fun _ => unknownToolEnvFixture) unknownToolStepsFixture).getD 0
        defaultLogEntry).result_preview = none ∧
    ((unknownToolStepsFixture.getD 0 defaultStep).critical = true →
      (stage3ExecutionLog (fun _ => unknownToolEnvFixture) unknownToolStepsFixture).length =
        0 + 1) := by
  have h := act_unknown_tool_fails_step (fun _ => unknownToolEnvFixture)
    unknownToolStepsFixture 0 (by decide) (by decide)
  exact h

/-- C3 counterexample: when the tool *raises* (rather than returning an
error result) and every repair attempt returns an input identical to the
failed one, `_act` does not stop early: it issues all
`maxRetries + 1 = 3` execute calls with the unchanged input — not fewer —
before returning the error.  The no-progress early stop exists only on
the returned-error-dict path. -/
theorem act_no_progress_still_retries_counterexample :
    noProgressEnvFixture.fixQuery "SELECT 1" (PyVal.pyStr "boom") = "SELECT 1" ∧
    (act noProgressEnvFixture noProgressStepFixture).2 = 3 ∧
    ((act noProgressEnvFixture noProgressStepFixture).1).hasKey "error" = true := by
  refine ⟨rfl, by decide, by decide⟩

/-- The retry loop of `_act` issues at most one `tool.execute` call per
remaining loop iteration. -/
theorem actLoop_calls_le (env : ActEnv) (isBQ : Bool) :
    ∀ (fuel attempt : Nat) (input : String) (lastErr : PyVal),
      (actLoop env isBQ fuel attempt input lastErr).2 ≤ fuel := by
  intro fuel
  induction fuel with
  | zero =>
    intro attempt input lastErr
    simp [actLoop]
  | succ n ih =>
    intro attempt input lastErr
    unfold actLoop
    cases hexec : env.exec attempt input with
    | ok v =>
      dsimp only
      split_ifs <;>
        first
          | exact Nat.le_refl 1 |>.trans (Nat.le_add_left 1 n)
          | exact Nat.succ_le_succ (ih _ _ _)
    | raised msg =>
      dsimp only
      split_ifs <;>
        first
          | exact Nat.le_refl 1 |>.trans (Nat.le_add_left 1 n)
          | exact Nat.succ_le_succ (ih _ _ _)

/-- C3 amended: per step, the self-healing loop issues at most
`maxRetries + 1 = 3` `tool.execute` calls; and on the path where the tool
*returns* an error result, a repair that yields an empty or identical
input (or a non-`bigquery` action, for which no repair is attempted)
stops the retrying at once: the error result is returned after a single
call.  (When the tool raises instead, a no-progress repair does not stop
the loop — see the counterexample.) -/
theorem act_retry_bound (env : ActEnv) (step : StepD) :
    ((act env step).2 ≤ actMaxRetries + 1) ∧
    (∀ v : PyVal, env.tools.contains step.action = true →
      env.exec 0 (env.prepInput step) = ExecOut.ok v →
      v.hasKey "error" = true →
      (step.action ≠ "bigquery" ∨
        env.fixQuery (env.prepInput step) (v.getKey "error") = "" ∨
        env.fixQuery (env.prepInput step) (v.getKey "error") = env.prepInput step) →
      act env step = (v, 1)) := by
  constructor
  · unfold act
    split_ifs
    · exact Nat.zero_le _
    · exact actLoop_calls_le env _ _ 0 _ _
  · rintro v hcont hexec herr hfix
    unfold act
    rw [hcont]
    simp only [Bool.not_true, Bool.false_eq_true, if_false]
    rcases hfix with hne | hfe | hfi
    · have hbq : (step.action == "bigquery") = false := by
        simpa using hne
      simp [actLoop, hexec, herr, hbq]
    · simp [actLoop, hexec, herr, hfe, actMaxRetries]
    · simp [actLoop, hexec, herr, hfi, actMaxRetries]

/-- Witness for C3 amended: on the error-dict fixture the loop stops
after one call and returns the error result; the global 3-call bound
holds. -/
theorem act_retry_bound_witness :
    ((act errDictEnvFixture errDictStepFixture).2 ≤ actMaxRetries + 1) ∧
    act errDictEnvFixture errDictStepFixture =
      (PyVal.pyDict [("error", PyVal.pyStr "bad")], 1) := by
  have h := act_retry_bound errDictEnvFixture errDictStepFixture
  exact ⟨h.1, h.2 (PyVal.pyDict [("error", PyVal.pyStr "bad")]) rfl rfl rfl
    (Or.inr (Or.inr rfl))⟩
